import Mathlib

/-!
Shallow embedding of the two source files of the `rmc` repository:

  * `src/rmc/exporters/excalidraw.py` — converts a sequence of notebook
    blocks into an Excalidraw document,
  * `src/rmc/exporters/obsidian.py` — wraps such a document into an
    Obsidian note template.

Python numbers (int and float positions, widths, pressures) are embedded
as `ℚ`; fields annotated `int` in the dataclasses but assigned arbitrary
numeric values by the code (`x`, `y`, `width`, `height`, `angle`) are `ℚ`
as well.  The impure default factories (`randomId`, `randomInt`,
`randomNonce`, `timestampInMiliseconds`) are isolated behind an injected
generator (`Gen`); the translator receives one generator value per input
block and the initial version counter (`random.randint(1, 50)`) as a
parameter.  Python exceptions are embedded as `Except`: a raised
exception propagates exactly as in the source, which has no handler in
either file.
-/

/-- The rmscene `Pen` tool enumeration.  Only `ERASER` is examined by the
exporter (`block.item.value.tool == Pen.ERASER`); the other members are
carried for completeness. -/
inductive Pen where
  | PAINTBRUSH
  | PENCIL
  | BALLPOINT
  | MARKER
  | FINELINER
  | HIGHLIGHTER
  | ERASER
  | ERASER_AREA
  | CALIGRAPHY
  | SHADER
deriving DecidableEq

/-- One point of a pen stroke.  The source also receives `speed`,
`direction` and `width` per point but never uses them (they appear only
in a commented-out `print`), so only the consumed fields are embedded. -/
structure Point where
  x : ℚ
  y : ℚ
  pressure : ℚ
deriving DecidableEq

/-- The inner value of a `SceneLineItemBlock` (`block.item.value`): tool
kind, the *name* of the rmscene pen-color enumeration member
(`block.item.value.color.name` is what the source reads), and the point
sequence. -/
structure SceneLine where
  tool : Pen
  color : String
  points : List Point
deriving DecidableEq

/-- A `SceneLineItemBlock`, collapsed to the only path the source reads:
`block.item.value`, which may be `None`. -/
structure SceneLineItemBlock where
  value : Option SceneLine
deriving DecidableEq

/-- The value of a `RootTextBlock` (`block.value`): ordered mapping of
text fragments (`items.items()` iteration order is the list order),
position and width. -/
structure RootTextValue where
  items : List (String × String)
  pos_x : ℚ
  pos_y : ℚ
  width : ℚ
deriving DecidableEq

/-- A `RootTextBlock`. -/
structure RootTextBlock where
  value : RootTextValue
deriving DecidableEq

/-- An input block: the two supported kinds, or any other rmscene block
kind (`AuthorIdsBlock`, `MigrationInfoBlock`, ... — the source skips
them, logging the class name). -/
inductive Block where
  | sceneLineItem (b : SceneLineItemBlock)
  | rootText (b : RootTextBlock)
  | other (className : String)
deriving DecidableEq

/-- `SCREEN_WIDTH = 1404`. -/
def SCREEN_WIDTH : ℚ := 1404

/-- `SCREEN_HEIGHT = 1872`. -/
def SCREEN_HEIGHT : ℚ := 1872

/-- `XPOS_SHIFT = SCREEN_WIDTH / 2`. -/
def XPOS_SHIFT : ℚ := SCREEN_WIDTH / 2

/-- The `HexPenColors` enumeration as the name → value mapping realised
by `HexPenColors[name].value`.  In Python, members with duplicate values
(`GREEN_2`, `HIGHLIGHT`, `YELLOW_2`) are aliases, but alias names remain
valid `__getitem__` keys and yield the same hex value written in the
source, so the lookup table is exactly the source listing. -/
def HexPenColors : List (String × String) :=
  [("BLACK", "#000000"),
   ("WHITE", "#FFFFFF"),
   ("GRAY", "#D3D3D3"),
   ("RED", "#FF0000"),
   ("GREEN", "#008000"),
   ("BLUE", "#0000FF"),
   ("YELLOW", "#FFFF00"),
   ("PINK", "#FFC0CB"),
   ("GRAY_OVERLAP", "#A9A9A9"),
   ("GREEN_2", "#008000"),
   ("CYAN", "#00FFFF"),
   ("MAGENTA", "#EC008C"),
   ("HIGHLIGHT", "#000000"),
   ("YELLOW_2", "#FFFF00")]

/-- `HexPenColors[name].value`; `none` models the `KeyError` Python
raises for a name that is no member. -/
def hexPenColor (name : String) : Option String :=
  HexPenColors.lookup name

/-- One drawn batch of the impure default factories: the values
`randomId()`, `randomInt()`, `randomNonce()`, `timestampInMiliseconds()`,
`randomNonce()` produce for one `ExcalidrawElement(...)` construction. -/
structure Gen where
  id : String
  version : Nat
  seed : Nat
  updated : Nat
  versionNonce : Nat
deriving DecidableEq

/-- The base `ExcalidrawElement` dataclass: every field of the source
class, with the source's defaults; the factory-produced fields have no
default here and are filled from a `Gen`. -/
structure ExcalidrawElement where
  x : ℚ := 0
  y : ℚ := 0
  width : ℚ := 0
  height : ℚ := 0
  frameId : Option String := none
  id : String
  version : Nat
  seed : Nat
  updated : Nat
  versionNonce : Nat
  angle : ℚ := 0
  roughness : Nat := 1
  opacity : Nat := 100
  strokeWidth : Nat := 1
  strokeStyle : String := "solid"
  strokeColor : String := "#000000"
  backgroundColor : String := "transparent"
  fillStyle : String := "hachure"
  groupIds : List String := []
  roundness : Option String := none
  isDeleted : Bool := false
  link : Option String := none
  locked : Bool := false
  boundElements : Option String := none
  containerId : Option String := none
deriving DecidableEq

/-- `ExcalidrawElement()`: a fresh base element whose factory fields are
drawn from the generator `g`. -/
def newExcalidrawElement (g : Gen) : ExcalidrawElement :=
  { id := g.id, version := g.version, seed := g.seed,
    updated := g.updated, versionNonce := g.versionNonce }

/-- Default `fontSize` of `ExcalidrawTextElement` (20, "Medium"). -/
def defaultFontSize : Nat := 20

/-- Default `lineHeight` of `ExcalidrawTextElement` (1.25). -/
def defaultLineHeight : ℚ := 5 / 4

/-- The `ExcalidrawTextElement` dataclass: base fields plus the
text-specific fields (`type` is the constant tag `"text"`, carried by the
`ExcalidrawSceneElement` wrapper). -/
structure ExcalidrawTextElement where
  base : ExcalidrawElement
  text : String
  originalText : String
  fontSize : Nat := defaultFontSize
  lineHeight : ℚ := defaultLineHeight
  fontFamily : Nat := 1
  textAlign : String := "left"
  verticalAlign : String := "top"
  baseline : Nat := 18
deriving DecidableEq

/-- The `ExcalidrawFreedrawElement` dataclass: base fields plus the
freedraw-specific fields (`type` is the constant tag `"freedraw"`). -/
structure ExcalidrawFreedrawElement where
  base : ExcalidrawElement
  points : List (ℚ × ℚ) := []
  lastCommittedPoint : Option (ℚ × ℚ) := none
  pressures : List ℚ := []
  simulatePressure : Bool := true
deriving DecidableEq

/-- An element of the output document.  The translator produces exactly
text and freedraw elements (`ExcalidrawImageElement` exists in the source
but is constructed by no code path of the two files). -/
inductive ExcalidrawSceneElement where
  | text (e : ExcalidrawTextElement)
  | freedraw (e : ExcalidrawFreedrawElement)
deriving DecidableEq

/-- The `ExcalidrawFile` dataclass (embedded binary assets; populated by
`addFile`, which no code path of the two files calls). -/
structure ExcalidrawFile where
  id : String
  mimeType : String := "image/gif"
  dataURL : String := "data:image/gif;base64,R0lGODlhAQABAAAAACH5BAEKAAEALAAAAAABAAEAAAICTAEAOw=="
  created : Nat
  lastRetrieved : Nat
deriving DecidableEq

/-- The `appState` dictionary of `ExcalidrawDocument`. -/
structure AppState where
  gridSize : Option Nat := none
  viewBackgroundColor : String := "#ffffff"
deriving DecidableEq

/-- The `ExcalidrawDocument` dataclass; `files` is the insertion-ordered
file-id → file mapping. -/
structure ExcalidrawDocument where
  type : String := "excalidraw"
  version : Nat := 2
  source : String := "excalidraw.py"
  elements : List ExcalidrawSceneElement := []
  appState : AppState := {}
  files : List (String × ExcalidrawFile) := []
deriving DecidableEq

/-- The exceptions the conversion code can raise: the `KeyError` of
`HexPenColors[name]` for an unknown color name (carrying that name, as
the Python `KeyError` does), and the `IndexError` of
`absolutePoints[0]` on an empty point list. -/
inductive DrawError where
  | unknownColor (name : String)
  | indexError
deriving DecidableEq

/-- `draw_stroke`: convert a `SceneLineItemBlock` into a freedraw
element, or fail as the source fails.  The steps mirror the source in
order: default element; `None` value short-circuit; eraser flag; color
lookup (`KeyError` on unknown name); building `absolutePoints` and
`pressures`; indexing `absolutePoints[0]` (`IndexError` when empty);
relative points; pressures taken as is. -/
def draw_stroke (g : Gen) (block : SceneLineItemBlock) :
    Except DrawError ExcalidrawFreedrawElement :=
  let excalidrawStroke : ExcalidrawFreedrawElement := { base := newExcalidrawElement g }
  match block.value with
  | none => .ok excalidrawStroke
  | some value =>
    let excalidrawStroke :=
      if value.tool = Pen.ERASER then
        { excalidrawStroke with base.isDeleted := true }
      else
        excalidrawStroke
    match hexPenColor value.color with
    | none => .error (.unknownColor value.color)
    | some hex =>
      let excalidrawStroke := { excalidrawStroke with base.strokeColor := hex }
      let absolutePoints := value.points.map fun point => (point.x, point.y)
      let pressures := value.points.map fun point => point.pressure
      match absolutePoints with
      | [] => .error .indexError
      | first :: _ =>
        let excalidrawStroke :=
          { excalidrawStroke with base.x := first.1, base.y := first.2 }
        let relativePoints :=
          absolutePoints.map fun ap => (ap.1 - first.1, ap.2 - first.2)
        .ok { excalidrawStroke with points := relativePoints, pressures := pressures }

/-- Python 3 `round`: round half to even, on exact rationals. -/
def pyRound (q : ℚ) : ℤ :=
  let f : ℤ := Int.floor q
  let frac : ℚ := q - (f : ℚ)
  if frac < 1 / 2 then f
  else if 1 / 2 < frac then f + 1
  else if f % 2 = 0 then f else f + 1

/-- `len(s.splitlines())` for strings whose line boundaries are newline
characters (Python additionally splits at rarer boundaries such as
carriage return and form feed, which this development never produces):
the empty string has zero lines, and a trailing newline opens no new
line. -/
def lineCount (s : String) : Nat :=
  if s = "" then 0
  else s.toList.count '\n' + (if s.toList.getLast? = some '\n' then 0 else 1)

/-- `draw_text`: convert a `RootTextBlock` into a text element.  Text is
the concatenation of the fragment values in mapping order; `x` is shifted
by `XPOS_SHIFT`; `height` is `fontSize * lineHeight * len(text.splitlines())`
(the class-attribute defaults); `x`, `y`, `width`, `height` are passed
through `round`. -/
def draw_text (g : Gen) (block : RootTextBlock) : ExcalidrawTextElement :=
  let text := String.join (block.value.items.map fun i => i.2)
  let x : ℚ := block.value.pos_x + XPOS_SHIFT
  let y : ℚ := block.value.pos_y
  let width : ℤ := pyRound block.value.width
  let height : ℚ := (defaultFontSize : ℚ) * defaultLineHeight * (lineCount text : ℚ)
  { base :=
      { newExcalidrawElement g with
          x := (pyRound x : ℚ),
          y := (pyRound y : ℚ),
          width := (pyRound (width : ℚ) : ℚ),
          height := (pyRound height : ℚ) },
    text := text,
    originalText := text }

/-- Overwrite the `version` field of an element, as
`excalidrawElement.version = version` does in the translator loop. -/
def setVersion (version : Nat) : ExcalidrawSceneElement → ExcalidrawSceneElement
  | .text e => .text { e with base.version := version }
  | .freedraw e => .freedraw { e with base.version := version }

/-- The `version` field of an element. -/
def elemVersion : ExcalidrawSceneElement → Nat
  | .text e => e.base.version
  | .freedraw e => e.base.version

/-- The `id` field of an element. -/
def elemId : ExcalidrawSceneElement → String
  | .text e => e.base.id
  | .freedraw e => e.base.id

/-- The loop body of `blocks_to_excalidraw`: walk the remaining blocks,
`i` the index of the next block in the whole input (selecting its
generator batch), `version` the counter so far.  The counter is bumped
before dispatch for every block, also skipped ones; an unsupported kind
is skipped (`continue`); an exception from `draw_stroke` propagates,
aborting the walk, exactly as the unguarded Python loop does. -/
def translateBlocks (gen : Nat → Gen) (i : Nat) (version : Nat) :
    List Block → Except DrawError (List ExcalidrawSceneElement)
  | [] => .ok []
  | block :: rest =>
    let version := version + 1
    match block with
    | .sceneLineItem b =>
      match draw_stroke (gen i) b with
      | .error e => .error e
      | .ok el =>
        match translateBlocks gen (i + 1) version rest with
        | .error e => .error e
        | .ok els => .ok (setVersion version (.freedraw el) :: els)
    | .rootText b =>
      match translateBlocks gen (i + 1) version rest with
      | .error e => .error e
      | .ok els => .ok (setVersion version (.text (draw_text (gen i) b)) :: els)
    | .other _ => translateBlocks gen (i + 1) version rest

/-- `blocks_to_excalidraw`: fresh document, version counter seeded from
`random.randint(1, 50)` (injected as `versionSeed`), then the loop.  A
raised exception propagates: no document is returned. -/
def blocks_to_excalidraw (versionSeed : Nat) (gen : Nat → Gen) (blocks : List Block) :
    Except DrawError ExcalidrawDocument :=
  match translateBlocks gen 0 versionSeed blocks with
  | .error e => .error e
  | .ok els => .ok { elements := els }

/-- 0-based positions of the supported (stroke or text) blocks in a
block list: the positions at which the translator loop appends an
element rather than `continue`. -/
def supportedIndices : List Block → List Nat
  | [] => []
  | block :: rest =>
    match block with
    | .other _ => (supportedIndices rest).map (· + 1)
    | _ => 0 :: (supportedIndices rest).map (· + 1)

/-- JSON values as produced by `json.dumps` with the
`DataclassJSONEncoder`, kept structural: Python serialises ints and
floats as distinct number tokens, so the embedding keeps `int` and `num`
apart; objects keep the stable key order `dataclasses.asdict` emits. -/
inductive Json where
  | null
  | bool (b : Bool)
  | int (n : ℤ)
  | num (q : ℚ)
  | str (s : String)
  | arr (elems : List Json)
  | obj (fields : List (String × Json))

/-- Serialise an optional string (`None` → `null`). -/
def encodeOptStr : Option String → Json
  | none => .null
  | some s => .str s

/-- Serialise an optional integer (`None` → `null`). -/
def encodeOptNat : Option Nat → Json
  | none => .null
  | some n => .int (.ofNat n)

/-- Serialise a `[x, y]` point pair. -/
def encodePoint (p : ℚ × ℚ) : Json :=
  .arr [.num p.1, .num p.2]

/-- Serialise an optional point (`None` → `null`). -/
def encodeOptPoint : Option (ℚ × ℚ) → Json
  | none => .null
  | some p => encodePoint p

/-- The base fields of an element, in the dataclass declaration order
`dataclasses.asdict` walks. -/
def encodeBaseFields (e : ExcalidrawElement) : List (String × Json) :=
  [("x", .num e.x),
   ("y", .num e.y),
   ("width", .num e.width),
   ("height", .num e.height),
   ("frameId", encodeOptStr e.frameId),
   ("id", .str e.id),
   ("version", .int (.ofNat e.version)),
   ("seed", .int (.ofNat e.seed)),
   ("updated", .int (.ofNat e.updated)),
   ("versionNonce", .int (.ofNat e.versionNonce)),
   ("angle", .num e.angle),
   ("roughness", .int (.ofNat e.roughness)),
   ("opacity", .int (.ofNat e.opacity)),
   ("strokeWidth", .int (.ofNat e.strokeWidth)),
   ("strokeStyle", .str e.strokeStyle),
   ("strokeColor", .str e.strokeColor),
   ("backgroundColor", .str e.backgroundColor),
   ("fillStyle", .str e.fillStyle),
   ("groupIds", .arr (e.groupIds.map Json.str)),
   ("roundness", encodeOptStr e.roundness),
   ("isDeleted", .bool e.isDeleted),
   ("link", encodeOptStr e.link),
   ("locked", .bool e.locked),
   ("boundElements", encodeOptStr e.boundElements),
   ("containerId", encodeOptStr e.containerId)]

/-- Serialise one element: base fields, then the subclass fields
(`type` tag first among them, as declared in the source dataclasses). -/
def encodeElement : ExcalidrawSceneElement → Json
  | .text e =>
    .obj (encodeBaseFields e.base ++
      [("type", .str "text"),
       ("text", .str e.text),
       ("originalText", .str e.originalText),
       ("fontSize", .int (.ofNat e.fontSize)),
       ("lineHeight", .num e.lineHeight),
       ("fontFamily", .int (.ofNat e.fontFamily)),
       ("textAlign", .str e.textAlign),
       ("verticalAlign", .str e.verticalAlign),
       ("baseline", .int (.ofNat e.baseline))])
  | .freedraw e =>
    .obj (encodeBaseFields e.base ++
      [("type", .str "freedraw"),
       ("points", .arr (e.points.map encodePoint)),
       ("lastCommittedPoint", encodeOptPoint e.lastCommittedPoint),
       ("pressures", .arr (e.pressures.map Json.num)),
       ("simulatePressure", .bool e.simulatePressure)])

/-- Serialise an `ExcalidrawFile` record. -/
def encodeFile (f : ExcalidrawFile) : Json :=
  .obj [("id", .str f.id),
        ("mimeType", .str f.mimeType),
        ("dataURL", .str f.dataURL),
        ("created", .int (.ofNat f.created)),
        ("lastRetrieved", .int (.ofNat f.lastRetrieved))]

/-- `excalidrawDocument_to_str`, kept at the structural level: the JSON
value `json.dumps(document, cls=DataclassJSONEncoder, indent=4)`
serialises.  The spec fixes only the re-parseable structure of the
serialisation, not its byte layout, so the textual rendering is injected
where a string is needed. -/
def excalidrawDocument_to_json (document : ExcalidrawDocument) : Json :=
  .obj [("type", .str document.type),
        ("version", .int (.ofNat document.version)),
        ("source", .str document.source),
        ("elements", .arr (document.elements.map encodeElement)),
        ("appState", .obj [("gridSize", encodeOptNat document.appState.gridSize),
                           ("viewBackgroundColor", .str document.appState.viewBackgroundColor)]),
        ("files", .obj (document.files.map fun kv => (kv.1, encodeFile kv.2)))]

/-- Parse an optional string field (`null` or a string). -/
def decodeOptStr : Json → Option (Option String)
  | .null => some none
  | .str s => some (some s)
  | _ => none

/-- Parse an optional non-negative integer field. -/
def decodeOptNat : Json → Option (Option Nat)
  | .null => some none
  | .int (.ofNat n) => some (some n)
  | _ => none

/-- Parse one string out of a JSON value. -/
def decodeStrOne : Json → Option String
  | .str s => some s
  | _ => none

/-- Parse one number out of a JSON value. -/
def decodeNumOne : Json → Option ℚ
  | .num q => some q
  | _ => none

/-- Parse a `[x, y]` point pair. -/
def decodePoint : Json → Option (ℚ × ℚ)
  | .arr [.num a, .num b] => some (a, b)
  | _ => none

/-- Parse an optional point (`null` or a pair). -/
def decodeOptPoint : Json → Option (Option (ℚ × ℚ))
  | .null => some none
  | j => (decodePoint j).map some

/-- Parse every entry of a JSON array with `f`, failing when any entry
fails. -/
def decodeListWith (f : Json → Option α) : List Json → Option (List α)
  | [] => some []
  | j :: rest =>
    match f j, decodeListWith f rest with
    | some a, some l => some (a :: l)
    | _, _ => none

/-- Parse one non-negative integer out of a JSON value. -/
def decodeNatOne : Json → Option Nat
  | .int (.ofNat n) => some n
  | _ => none

/-- Parse one boolean out of a JSON value. -/
def decodeBoolOne : Json → Option Bool
  | .bool b => some b
  | _ => none

/-- Parse a JSON array with `f` entry-wise. -/
def decodeArrWith (f : Json → Option α) : Json → Option (List α)
  | .arr elems => decodeListWith f elems
  | _ => none

/-- Take the next field of an object body, requiring its expected key. -/
def popField (key : String) : List (String × Json) → Option (Json × List (String × Json))
  | (k, j) :: rest => if k = key then some (j, rest) else none
  | [] => none

/-- Take the next field of an object body, requiring its expected key,
and parse its value with `f`. -/
def pop (key : String) (f : Json → Option α) (l : List (String × Json)) :
    Option (α × List (String × Json)) :=
  match popField key l with
  | none => none
  | some (j, rest) =>
    match f j with
    | none => none
    | some a => some (a, rest)

/-- Parse the shared base fields of an element of the output JSON shape
(§6 of the spec), in their stable order, returning the remaining
(kind-specific) fields. -/
def decodeBaseFields (l : List (String × Json)) :
    Option (ExcalidrawElement × List (String × Json)) :=
  match pop "x" decodeNumOne l with
  | none => none
  | some (x, l) =>
  match pop "y" decodeNumOne l with
  | none => none
  | some (y, l) =>
  match pop "width" decodeNumOne l with
  | none => none
  | some (width, l) =>
  match pop "height" decodeNumOne l with
  | none => none
  | some (height, l) =>
  match pop "frameId" decodeOptStr l with
  | none => none
  | some (frameId, l) =>
  match pop "id" decodeStrOne l with
  | none => none
  | some (id, l) =>
  match pop "version" decodeNatOne l with
  | none => none
  | some (version, l) =>
  match pop "seed" decodeNatOne l with
  | none => none
  | some (seed, l) =>
  match pop "updated" decodeNatOne l with
  | none => none
  | some (updated, l) =>
  match pop "versionNonce" decodeNatOne l with
  | none => none
  | some (versionNonce, l) =>
  match pop "angle" decodeNumOne l with
  | none => none
  | some (angle, l) =>
  match pop "roughness" decodeNatOne l with
  | none => none
  | some (roughness, l) =>
  match pop "opacity" decodeNatOne l with
  | none => none
  | some (opacity, l) =>
  match pop "strokeWidth" decodeNatOne l with
  | none => none
  | some (strokeWidth, l) =>
  match pop "strokeStyle" decodeStrOne l with
  | none => none
  | some (strokeStyle, l) =>
  match pop "strokeColor" decodeStrOne l with
  | none => none
  | some (strokeColor, l) =>
  match pop "backgroundColor" decodeStrOne l with
  | none => none
  | some (backgroundColor, l) =>
  match pop "fillStyle" decodeStrOne l with
  | none => none
  | some (fillStyle, l) =>
  match pop "groupIds" (decodeArrWith decodeStrOne) l with
  | none => none
  | some (groupIds, l) =>
  match pop "roundness" decodeOptStr l with
  | none => none
  | some (roundness, l) =>
  match pop "isDeleted" decodeBoolOne l with
  | none => none
  | some (isDeleted, l) =>
  match pop "link" decodeOptStr l with
  | none => none
  | some (link, l) =>
  match pop "locked" decodeBoolOne l with
  | none => none
  | some (locked, l) =>
  match pop "boundElements" decodeOptStr l with
  | none => none
  | some (boundElements, l) =>
  match pop "containerId" decodeOptStr l with
  | none => none
  | some (containerId, l) =>
  some
    ({ x := x, y := y, width := width, height := height, frameId := frameId, id := id,
       version := version, seed := seed, updated := updated, versionNonce := versionNonce,
       angle := angle, roughness := roughness, opacity := opacity,
       strokeWidth := strokeWidth, strokeStyle := strokeStyle, strokeColor := strokeColor,
       backgroundColor := backgroundColor, fillStyle := fillStyle, groupIds := groupIds,
       roundness := roundness, isDeleted := isDeleted, link := link, locked := locked,
       boundElements := boundElements, containerId := containerId }, l)

/-- Parse the kind-specific tail of a text element. -/
def decodeTextFields (base : ExcalidrawElement) (l : List (String × Json)) :
    Option ExcalidrawSceneElement :=
  match pop "text" decodeStrOne l with
  | none => none
  | some (text, l) =>
  match pop "originalText" decodeStrOne l with
  | none => none
  | some (originalText, l) =>
  match pop "fontSize" decodeNatOne l with
  | none => none
  | some (fontSize, l) =>
  match pop "lineHeight" decodeNumOne l with
  | none => none
  | some (lineHeight, l) =>
  match pop "fontFamily" decodeNatOne l with
  | none => none
  | some (fontFamily, l) =>
  match pop "textAlign" decodeStrOne l with
  | none => none
  | some (textAlign, l) =>
  match pop "verticalAlign" decodeStrOne l with
  | none => none
  | some (verticalAlign, l) =>
  match pop "baseline" decodeNatOne l with
  | none => none
  | some (baseline, l) =>
  match l with
  | [] =>
    some (.text
      { base := base, text := text, originalText := originalText, fontSize := fontSize,
        lineHeight := lineHeight, fontFamily := fontFamily, textAlign := textAlign,
        verticalAlign := verticalAlign, baseline := baseline })
  | _ => none

/-- Parse the kind-specific tail of a freedraw element. -/
def decodeFreedrawFields (base : ExcalidrawElement) (l : List (String × Json)) :
    Option ExcalidrawSceneElement :=
  match pop "points" (decodeArrWith decodePoint) l with
  | none => none
  | some (points, l) =>
  match pop "lastCommittedPoint" decodeOptPoint l with
  | none => none
  | some (lastCommittedPoint, l) =>
  match pop "pressures" (decodeArrWith decodeNumOne) l with
  | none => none
  | some (pressures, l) =>
  match pop "simulatePressure" decodeBoolOne l with
  | none => none
  | some (simulatePressure, l) =>
  match l with
  | [] =>
    some (.freedraw
      { base := base, points := points, lastCommittedPoint := lastCommittedPoint,
        pressures := pressures, simulatePressure := simulatePressure })
  | _ => none

/-- Parse one element of the output JSON shape: the base fields, then
the `type` tag selecting the kind-specific fields.  The repository
itself contains no parser; this decoder realises the spec's element JSON
shape (§6) so that the round-trip property P6 ("the fenced content,
when parsed as the output JSON shape, is structurally equal") can be
stated. -/
def decodeElement : Json → Option ExcalidrawSceneElement
  | .obj fields =>
    match decodeBaseFields fields with
    | none => none
    | some (base, rest) =>
      match rest with
      | ("type", .str "text") :: rest => decodeTextFields base rest
      | ("type", .str "freedraw") :: rest => decodeFreedrawFields base rest
      | _ => none
  | _ => none

/-- Parse an `ExcalidrawFile` record. -/
def decodeFile : Json → Option ExcalidrawFile
  | .obj l =>
    match pop "id" decodeStrOne l with
    | none => none
    | some (id, l) =>
    match pop "mimeType" decodeStrOne l with
    | none => none
    | some (mimeType, l) =>
    match pop "dataURL" decodeStrOne l with
    | none => none
    | some (dataURL, l) =>
    match pop "created" decodeNatOne l with
    | none => none
    | some (created, l) =>
    match pop "lastRetrieved" decodeNatOne l with
    | none => none
    | some (lastRetrieved, l) =>
    match l with
    | [] =>
      some { id := id, mimeType := mimeType, dataURL := dataURL, created := created,
             lastRetrieved := lastRetrieved }
    | _ => none
  | _ => none

/-- Parse the `files` object: file-id keys with file records. -/
def decodeFiles : List (String × Json) → Option (List (String × ExcalidrawFile))
  | [] => some []
  | (key, j) :: rest =>
    match decodeFile j, decodeFiles rest with
    | some f, some l => some ((key, f) :: l)
    | _, _ => none

/-- Parse a `files` JSON object. -/
def decodeFilesJson : Json → Option (List (String × ExcalidrawFile))
  | .obj fs => decodeFiles fs
  | _ => none

/-- Parse the `appState` object. -/
def decodeAppState : Json → Option AppState
  | .obj l =>
    match pop "gridSize" decodeOptNat l with
    | none => none
    | some (gridSize, l) =>
    match pop "viewBackgroundColor" decodeStrOne l with
    | none => none
    | some (viewBackgroundColor, l) =>
    match l with
    | [] => some { gridSize := gridSize, viewBackgroundColor := viewBackgroundColor }
    | _ => none
  | _ => none

/-- Parse a whole document of the output JSON shape
`{type, version, source, elements, appState, files}` (§6 of the spec;
the repository contains no parser of its own output — this decoder
exists to state the spec's round-trip property P6). -/
def decodeDocument : Json → Option ExcalidrawDocument
  | .obj l =>
    match pop "type" decodeStrOne l with
    | none => none
    | some (type, l) =>
    match pop "version" decodeNatOne l with
    | none => none
    | some (version, l) =>
    match pop "source" decodeStrOne l with
    | none => none
    | some (source, l) =>
    match pop "elements" (decodeArrWith decodeElement) l with
    | none => none
    | some (elements, l) =>
    match pop "appState" decodeAppState l with
    | none => none
    | some (appState, l) =>
    match pop "files" decodeFilesJson l with
    | none => none
    | some (files, l) =>
    match l with
    | [] =>
      some { type := type, version := version, source := source, elements := elements,
             appState := appState, files := files }
    | _ => none
  | _ => none

/-- The fixed Obsidian note template up to the `text_elements` hole. -/
def obsidianTemplateHead : String :=
  "---\n\nexcalidraw-plugin: parsed\ntags: [excalidraw]\n\n---\n==⚠  Switch to EXCALIDRAW VIEW in the MORE OPTIONS menu of this document. ⚠==\n\n\n# Text Elements\n"

/-- The fixed Obsidian note template between the `text_elements` and
`excalidraw_json` holes. -/
def obsidianTemplateMid : String :=
  "\n\n# Embedded files\n\n%%\n# Drawing\n```json\n"

/-- The fixed Obsidian note template after the `excalidraw_json` hole. -/
def obsidianTemplateTail : String :=
  "\n```\n%%"

/-- The `isinstance(element, ExcalidrawTextElement)` filter of the note
wrapper: the `text` field of a text element, nothing for other kinds. -/
def textOf : ExcalidrawSceneElement → Option String
  | .text e => some e.text
  | .freedraw _ => none

/-- `excalidraw_to_obsidian`: serialise the document (the structural
value is `excalidrawDocument_to_json document`; its textual rendering is
the injected `render`, the byte layout being no part of the contract),
collect the `text` of the text elements in document order, join them
with a blank line, and substitute both into the fixed template. -/
def excalidraw_to_obsidian (render : Json → String) (document : ExcalidrawDocument) : String :=
  let excalidraw_str := render (excalidrawDocument_to_json document)
  let text_elements := document.elements.filterMap textOf
  obsidianTemplateHead ++ String.intercalate "\n\n" text_elements ++
    obsidianTemplateMid ++ excalidraw_str ++ obsidianTemplateTail

/-- A fixed generator batch for concrete evaluations. -/
def genA : Gen :=
  { id := "A", version := 99, seed := 3, updated := 5, versionNonce := 9 }

/-- A generator stream with distinct ids per position. -/
def wGen : Nat → Gen :=
  fun i => { id := Nat.repr i, version := 90, seed := 3, updated := 5, versionNonce := 9 }

/-- A generator stream that repeats the same batch (as the random id
generator may). -/
def constGen : Nat → Gen := fun _ => genA

/-- The spec example stroke: color RED, three points with pressures. -/
def redStrokeBlock : SceneLineItemBlock :=
  { value := some
      { tool := Pen.BALLPOINT, color := "RED",
        points := [{ x := 10, y := 10, pressure := 1 / 2 },
                   { x := 20, y := 10, pressure := 3 / 5 },
                   { x := 20, y := 20, pressure := 7 / 10 }] } }

/-- The inner value of `redStrokeBlock`. -/
def redStrokeValue : SceneLine :=
  { tool := Pen.BALLPOINT, color := "RED",
    points := [{ x := 10, y := 10, pressure := 1 / 2 },
               { x := 20, y := 10, pressure := 3 / 5 },
               { x := 20, y := 20, pressure := 7 / 10 }] }

/-- A stroke block with a color name outside the palette. -/
def tealStrokeBlock : SceneLineItemBlock :=
  { value := some { tool := Pen.ERASER, color := "TEAL",
                    points := [{ x := 1, y := 2, pressure := 3 }] } }

/-- Another stroke block with a color name outside the palette. -/
def limeStrokeBlock : SceneLineItemBlock :=
  { value := some { tool := Pen.BALLPOINT, color := "LIME",
                    points := [{ x := 1, y := 2, pressure := 3 }] } }

/-- A stroke block with a non-null value and zero points. -/
def emptyPointsBlock : SceneLineItemBlock :=
  { value := some { tool := Pen.BALLPOINT, color := "BLACK", points := [] } }

/-- The spec example text block. -/
def helloTextBlock : RootTextBlock :=
  { value := { items := [("0", "Hello"), ("1", " world")],
               pos_x := 100, pos_y := 200, width := 3004 / 10 } }

/-- A text block whose concatenated text is empty. -/
def emptyTextBlock : RootTextBlock :=
  { value := { items := [], pos_x := 0, pos_y := 0, width := 0 } }

/-- The freedraw element `draw_stroke` produces for `redStrokeBlock`. -/
def wRedStrokeEl : ExcalidrawFreedrawElement :=
  match draw_stroke genA redStrokeBlock with
  | .ok e => e
  | .error _ => { base := newExcalidrawElement genA }

/-- A concrete input list: text, one unsupported block, stroke. -/
def wBlocks : List Block :=
  [Block.rootText helloTextBlock, Block.other "SceneTreeBlock",
   Block.sceneLineItem redStrokeBlock]

/-- The document the translator produces for `wBlocks` with seed 7. -/
def wDoc : ExcalidrawDocument :=
  match blocks_to_excalidraw 7 wGen wBlocks with
  | .ok d => d
  | .error _ => {}

/-- A prefix of supported and unsupported blocks that translates
successfully. -/
def wPre : List Block :=
  [Block.rootText helloTextBlock, Block.other "SceneTreeBlock"]

/-- The elements the translator loop produces for `wPre` (seed 3,
repeating generator). -/
def wPreEls : List ExcalidrawSceneElement :=
  match translateBlocks constGen 0 3 wPre with
  | .ok els => els
  | .error _ => []

/-- Two text blocks translated with a repeating generator. -/
def dupBlocks : List Block :=
  [Block.rootText helloTextBlock, Block.rootText helloTextBlock]

/-- The document the translator produces for `dupBlocks` with the
repeating generator. -/
def dupDoc : ExcalidrawDocument :=
  match blocks_to_excalidraw 0 constGen dupBlocks with
  | .ok d => d
  | .error _ => {}

theorem popField_cons (key : String) (j : Json) (rest : List (String × Json)) :
    popField key ((key, j) :: rest) = some (j, rest) := by
  simp [popField]

theorem pop_cons (key : String) (f : Json → Option α) (j : Json)
    (rest : List (String × Json)) :
    pop key f ((key, j) :: rest) =
      match f j with
      | none => none
      | some a => some (a, rest) := by
  simp [pop, popField_cons]

theorem decodeOptStr_encodeOptStr (o : Option String) :
    decodeOptStr (encodeOptStr o) = some o := by
  cases o <;> rfl

theorem decodeOptNat_encodeOptNat (o : Option Nat) :
    decodeOptNat (encodeOptNat o) = some o := by
  cases o <;> rfl

theorem decodePoint_encodePoint (p : ℚ × ℚ) :
    decodePoint (encodePoint p) = some p := rfl

theorem decodeOptPoint_encodeOptPoint (o : Option (ℚ × ℚ)) :
    decodeOptPoint (encodeOptPoint o) = some o := by
  cases o <;> rfl

theorem decodeListWith_map (f : Json → Option α) (g : α → Json)
    (h : ∀ a, f (g a) = some a) : ∀ l : List α, decodeListWith f (l.map g) = some l
  | [] => rfl
  | a :: l => by
    simp only [List.map_cons, decodeListWith, h a, decodeListWith_map f g h l]

theorem decodeArrWith_map (f : Json → Option α) (g : α → Json)
    (h : ∀ a, f (g a) = some a) (l : List α) :
    decodeArrWith f (.arr (l.map g)) = some l := by
  simp only [decodeArrWith, decodeListWith_map f g h l]

theorem decodeBaseFields_encode (e : ExcalidrawElement) (rest : List (String × Json)) :
    decodeBaseFields (encodeBaseFields e ++ rest) = some (e, rest) := by
  simp only [decodeBaseFields, encodeBaseFields, List.cons_append, List.nil_append, pop_cons,
    decodeNumOne, decodeStrOne, decodeNatOne, decodeBoolOne, decodeOptStr_encodeOptStr,
    decodeArrWith_map decodeStrOne Json.str (fun _ => rfl)]

theorem decodeElement_encodeElement (el : ExcalidrawSceneElement) :
    decodeElement (encodeElement el) = some el := by
  cases el with
  | text e =>
    simp only [encodeElement, decodeElement, decodeBaseFields_encode, decodeTextFields,
      pop_cons, decodeNumOne, decodeStrOne, decodeNatOne]
  | freedraw e =>
    simp only [encodeElement, decodeElement, decodeBaseFields_encode, decodeFreedrawFields,
      pop_cons, decodeNumOne, decodeBoolOne, decodeOptPoint_encodeOptPoint,
      decodeArrWith_map decodePoint encodePoint decodePoint_encodePoint,
      decodeArrWith_map decodeNumOne Json.num (fun _ => rfl)]

theorem decodeFile_encodeFile (f : ExcalidrawFile) :
    decodeFile (encodeFile f) = some f := by
  simp only [encodeFile, decodeFile, pop_cons, decodeStrOne, decodeNatOne]

theorem decodeFiles_encode :
    ∀ l : List (String × ExcalidrawFile),
      decodeFiles (l.map fun kv => (kv.1, encodeFile kv.2)) = some l
  | [] => rfl
  | (key, f) :: l => by
    simp only [List.map_cons, decodeFiles, decodeFile_encodeFile, decodeFiles_encode l]

theorem decodeAppState_encode (s : AppState) :
    decodeAppState (.obj [("gridSize", encodeOptNat s.gridSize),
                          ("viewBackgroundColor", .str s.viewBackgroundColor)]) = some s := by
  simp only [decodeAppState, pop_cons, decodeOptNat_encodeOptNat, decodeStrOne]

theorem decodeFilesJson_encode (l : List (String × ExcalidrawFile)) :
    decodeFilesJson (.obj (l.map fun kv => (kv.1, encodeFile kv.2))) = some l := by
  simp only [decodeFilesJson, decodeFiles_encode]

theorem decodeDocument_encodeDocument (document : ExcalidrawDocument) :
    decodeDocument (excalidrawDocument_to_json document) = some document := by
  simp only [excalidrawDocument_to_json, decodeDocument, pop_cons, decodeStrOne, decodeNatOne,
    decodeArrWith_map decodeElement encodeElement decodeElement_encodeElement,
    decodeAppState_encode, decodeFilesJson_encode]

theorem elemVersion_setVersion (v : Nat) (el : ExcalidrawSceneElement) :
    elemVersion (setVersion v el) = v := by
  cases el <;> rfl

theorem elemId_setVersion (v : Nat) (el : ExcalidrawSceneElement) :
    elemId (setVersion v el) = elemId el := by
  cases el <;> rfl

theorem draw_stroke_none (g : Gen) (block : SceneLineItemBlock) (hb : block.value = none) :
    draw_stroke g block = .ok { base := newExcalidrawElement g } := by
  simp only [draw_stroke, hb]

theorem draw_stroke_unknown (g : Gen) (block : SceneLineItemBlock) (v : SceneLine)
    (hb : block.value = some v) (hhex : hexPenColor v.color = none) :
    draw_stroke g block = .error (.unknownColor v.color) := by
  simp only [draw_stroke, hb, hhex]

theorem draw_stroke_empty (g : Gen) (block : SceneLineItemBlock) (v : SceneLine) (hex : String)
    (hb : block.value = some v) (hhex : hexPenColor v.color = some hex)
    (hp : v.points = []) :
    draw_stroke g block = .error .indexError := by
  simp only [draw_stroke, hb, hhex, hp, List.map_nil]

theorem draw_stroke_eq (g : Gen) (block : SceneLineItemBlock) (v : SceneLine) (hex : String)
    (p : Point) (ps : List Point) (hb : block.value = some v)
    (hhex : hexPenColor v.color = some hex) (hp : v.points = p :: ps) :
    draw_stroke g block = .ok
      { base := { newExcalidrawElement g with
                    x := p.x, y := p.y, strokeColor := hex,
                    isDeleted := if v.tool = Pen.ERASER then true else false },
        points := (p :: ps).map fun q => (q.x - p.x, q.y - p.y),
        pressures := (p :: ps).map Point.pressure } := by
  simp only [draw_stroke, hb, hhex, hp, List.map_cons, List.map_map]
  by_cases ht : v.tool = Pen.ERASER <;>
    simp [ht, Function.comp, newExcalidrawElement]

theorem draw_stroke_ok_id (g : Gen) (block : SceneLineItemBlock)
    (el : ExcalidrawFreedrawElement) (h : draw_stroke g block = .ok el) :
    el.base.id = g.id := by
  cases hb : block.value with
  | none =>
    rw [draw_stroke_none g block hb] at h
    injection h with h
    subst h
    rfl
  | some v =>
    cases hhex : hexPenColor v.color with
    | none => rw [draw_stroke_unknown g block v hb hhex] at h; cases h
    | some hex =>
      cases hp : v.points with
      | nil => rw [draw_stroke_empty g block v hex hb hhex hp] at h; cases h
      | cons p ps =>
        rw [draw_stroke_eq g block v hex p ps hb hhex hp] at h
        injection h with h
        subst h
        rfl

theorem translateBlocks_versions :
    ∀ (bs : List Block) (gen : Nat → Gen) (i ver : Nat) (els : List ExcalidrawSceneElement),
      translateBlocks gen i ver bs = .ok els →
      els.map elemVersion = (supportedIndices bs).map fun k => ver + k + 1
  | [], gen, i, ver, els => by
    intro h
    simp only [translateBlocks] at h
    injection h with h
    subst h
    rfl
  | Block.sceneLineItem b :: rest, gen, i, ver, els => by
    intro h
    simp only [translateBlocks] at h
    cases hd : draw_stroke (gen i) b with
    | error e => rw [hd] at h; cases h
    | ok el =>
      rw [hd] at h
      cases ht : translateBlocks gen (i + 1) (ver + 1) rest with
      | error e => rw [ht] at h; cases h
      | ok els2 =>
        rw [ht] at h
        injection h with h
        subst h
        have ih := translateBlocks_versions rest gen (i + 1) (ver + 1) els2 ht
        have hf : (fun k => ver + (k + 1) + 1) = fun k => ver + 1 + k + 1 := by
          funext k; omega
        simp only [supportedIndices, List.map_cons, List.map_map, elemVersion_setVersion, ih,
          Function.comp_def, hf, Nat.add_zero]
  | Block.rootText b :: rest, gen, i, ver, els => by
    intro h
    simp only [translateBlocks] at h
    cases ht : translateBlocks gen (i + 1) (ver + 1) rest with
    | error e => rw [ht] at h; cases h
    | ok els2 =>
      rw [ht] at h
      injection h with h
      subst h
      have ih := translateBlocks_versions rest gen (i + 1) (ver + 1) els2 ht
      have hf : (fun k => ver + (k + 1) + 1) = fun k => ver + 1 + k + 1 := by
        funext k; omega
      simp only [supportedIndices, List.map_cons, List.map_map, elemVersion_setVersion, ih,
        Function.comp_def, hf, Nat.add_zero]
  | Block.other s :: rest, gen, i, ver, els => by
    intro h
    simp only [translateBlocks] at h
    have ih := translateBlocks_versions rest gen (i + 1) (ver + 1) els h
    have hf : (fun k => ver + (k + 1) + 1) = fun k => ver + 1 + k + 1 := by
      funext k; omega
    simp only [supportedIndices, List.map_map, ih, Function.comp_def, hf]

theorem translateBlocks_ids :
    ∀ (bs : List Block) (gen : Nat → Gen) (i ver : Nat) (els : List ExcalidrawSceneElement),
      translateBlocks gen i ver bs = .ok els →
      els.map elemId = (supportedIndices bs).map fun k => (gen (i + k)).id
  | [], gen, i, ver, els => by
    intro h
    simp only [translateBlocks] at h
    injection h with h
    subst h
    rfl
  | Block.sceneLineItem b :: rest, gen, i, ver, els => by
    intro h
    simp only [translateBlocks] at h
    cases hd : draw_stroke (gen i) b with
    | error e => rw [hd] at h; cases h
    | ok el =>
      rw [hd] at h
      cases ht : translateBlocks gen (i + 1) (ver + 1) rest with
      | error e => rw [ht] at h; cases h
      | ok els2 =>
        rw [ht] at h
        injection h with h
        subst h
        have ih := translateBlocks_ids rest gen (i + 1) (ver + 1) els2 ht
        have hid : el.base.id = (gen i).id := draw_stroke_ok_id (gen i) b el hd
        have hf : (fun k => (gen (i + (k + 1))).id) = fun k => (gen (i + 1 + k)).id := by
          funext k
          have : i + (k + 1) = i + 1 + k := by omega
          rw [this]
        simp only [supportedIndices, List.map_cons, List.map_map, setVersion, elemId, ih,
          Function.comp_def, hf, Nat.add_zero, hid]
  | Block.rootText b :: rest, gen, i, ver, els => by
    intro h
    simp only [translateBlocks] at h
    cases ht : translateBlocks gen (i + 1) (ver + 1) rest with
    | error e => rw [ht] at h; cases h
    | ok els2 =>
      rw [ht] at h
      injection h with h
      subst h
      have ih := translateBlocks_ids rest gen (i + 1) (ver + 1) els2 ht
      have hf : (fun k => (gen (i + (k + 1))).id) = fun k => (gen (i + 1 + k)).id := by
        funext k
        have : i + (k + 1) = i + 1 + k := by omega
        rw [this]
      simp only [supportedIndices, List.map_cons, List.map_map, setVersion, elemId, ih,
        Function.comp_def, hf, Nat.add_zero, draw_text, newExcalidrawElement]
  | Block.other s :: rest, gen, i, ver, els => by
    intro h
    simp only [translateBlocks] at h
    have ih := translateBlocks_ids rest gen (i + 1) (ver + 1) els h
    have hf : (fun k => (gen (i + (k + 1))).id) = fun k => (gen (i + 1 + k)).id := by
      funext k
      have : i + (k + 1) = i + 1 + k := by omega
      rw [this]
    simp only [supportedIndices, List.map_map, ih, Function.comp_def, hf]

theorem supportedIndices_chain : ∀ bs : List Block, List.Chain' (· < ·) (supportedIndices bs)
  | [] => List.chain'_nil
  | b :: rest => by
    have ih := supportedIndices_chain rest
    have hmap : List.Chain' (· < ·) ((supportedIndices rest).map (· + 1)) := by
      rw [List.chain'_map]
      exact ih.imp fun h => by omega
    cases b with
    | other s => simpa [supportedIndices] using hmap
    | sceneLineItem sb =>
      simp only [supportedIndices]
      refine List.chain'_cons'.2 ⟨?_, hmap⟩
      intro y hy
      cases hrest : supportedIndices rest with
      | nil => rw [hrest] at hy; simp at hy
      | cons a l =>
        rw [hrest] at hy
        simp only [List.map_cons, List.head?_cons, Option.mem_some_iff] at hy
        omega
    | rootText tb =>
      simp only [supportedIndices]
      refine List.chain'_cons'.2 ⟨?_, hmap⟩
      intro y hy
      cases hrest : supportedIndices rest with
      | nil => rw [hrest] at hy; simp at hy
      | cons a l =>
        rw [hrest] at hy
        simp only [List.map_cons, List.head?_cons, Option.mem_some_iff] at hy
        omega

theorem supportedIndices_sublist :
    ∀ bs : List Block, (supportedIndices bs).Sublist (List.range bs.length)
  | [] => List.Sublist.slnil
  | b :: rest => by
    have ih := supportedIndices_sublist rest
    have hmap : ((supportedIndices rest).map (· + 1)).Sublist
        ((List.range rest.length).map (· + 1)) := ih.map _
    cases b with
    | other s =>
      simp only [supportedIndices, List.length_cons, List.range_succ_eq_map]
      exact hmap.cons 0
    | sceneLineItem sb =>
      simp only [supportedIndices, List.length_cons, List.range_succ_eq_map]
      exact hmap.cons₂ 0
    | rootText tb =>
      simp only [supportedIndices, List.length_cons, List.range_succ_eq_map]
      exact hmap.cons₂ 0

theorem pyRound_intCast (n : ℤ) : pyRound (n : ℚ) = n := by
  simp only [pyRound, Int.floor_intCast, sub_self]
  norm_num

/-- C1 counterexample: a sequence whose first block fails color lookup
and whose second block is a supported text block.  The claim predicts a
document containing the element of the text block; the code instead
propagates the failure and returns no document at all. -/
theorem blocks_to_excalidraw_abort_cex :
    blocks_to_excalidraw 0 constGen
      [Block.sceneLineItem tealStrokeBlock, Block.rootText helloTextBlock] =
      .error (.unknownColor "TEAL") := by
  with_unfolding_all rfl

theorem translateBlocks_append_error :
    ∀ (pre : List Block) (gen : Nat → Gen) (i ver : Nat)
      (els : List ExcalidrawSceneElement) (bs : List Block) (e : DrawError),
      translateBlocks gen i ver pre = .ok els →
      translateBlocks gen (i + pre.length) (ver + pre.length) bs = .error e →
      translateBlocks gen i ver (pre ++ bs) = .error e
  | [], gen, i, ver, els, bs, e => by
    intro _ hbs
    simpa using hbs
  | Block.sceneLineItem b :: pre, gen, i, ver, els, bs, e => by
    intro hpre hbs
    simp only [translateBlocks] at hpre ⊢
    cases hd : draw_stroke (gen i) b with
    | error e2 => rw [hd] at hpre; cases hpre
    | ok el =>
      rw [hd] at hpre
      cases ht : translateBlocks gen (i + 1) (ver + 1) pre with
      | error e2 => rw [ht] at hpre; cases hpre
      | ok els2 =>
        have harith1 : i + 1 + pre.length = i + (pre.length + 1) := by omega
        have harith2 : ver + 1 + pre.length = ver + (pre.length + 1) := by omega
        have hbs2 : translateBlocks gen (i + 1 + pre.length) (ver + 1 + pre.length) bs =
            .error e := by
          rw [harith1, harith2]
          simpa using hbs
        rw [List.append_eq,
          translateBlocks_append_error pre gen (i + 1) (ver + 1) els2 bs e ht hbs2]
  | Block.rootText b :: pre, gen, i, ver, els, bs, e => by
    intro hpre hbs
    simp only [translateBlocks] at hpre ⊢
    cases ht : translateBlocks gen (i + 1) (ver + 1) pre with
    | error e2 => rw [ht] at hpre; cases hpre
    | ok els2 =>
      have harith1 : i + 1 + pre.length = i + (pre.length + 1) := by omega
      have harith2 : ver + 1 + pre.length = ver + (pre.length + 1) := by omega
      have hbs2 : translateBlocks gen (i + 1 + pre.length) (ver + 1 + pre.length) bs =
          .error e := by
        rw [harith1, harith2]
        simpa using hbs
      rw [List.append_eq,
        translateBlocks_append_error pre gen (i + 1) (ver + 1) els2 bs e ht hbs2]
  | Block.other s :: pre, gen, i, ver, els, bs, e => by
    intro hpre hbs
    simp only [translateBlocks] at hpre ⊢
    have harith1 : i + 1 + pre.length = i + (pre.length + 1) := by omega
    have harith2 : ver + 1 + pre.length = ver + (pre.length + 1) := by omega
    have hbs2 : translateBlocks gen (i + 1 + pre.length) (ver + 1 + pre.length) bs =
        .error e := by
      rw [harith1, harith2]
      simpa using hbs
    exact translateBlocks_append_error pre gen (i + 1) (ver + 1) els bs e hpre hbs2

/-- C1 (amended): a failure mapping a block at any position is not
caught per block: even when every earlier block was processed
successfully (producing `els`), the failure propagates out of
`blocks_to_excalidraw`, translation of the whole sequence aborts at the
failing block, the remaining blocks are not processed, and no document
is returned — the successfully-mapped prefix is discarded with it. -/
theorem blocks_to_excalidraw_error_propagates (versionSeed : Nat) (gen : Nat → Gen)
    (pre : List Block) (els : List ExcalidrawSceneElement)
    (b : SceneLineItemBlock) (rest : List Block) (e : DrawError)
    (hpre : translateBlocks gen 0 versionSeed pre = .ok els)
    (h : draw_stroke (gen pre.length) b = .error e) :
    blocks_to_excalidraw versionSeed gen (pre ++ Block.sceneLineItem b :: rest) =
      .error e := by
  have hbs : translateBlocks gen (0 + pre.length) (versionSeed + pre.length)
      (Block.sceneLineItem b :: rest) = .error e := by
    have h0 : (0 : Nat) + pre.length = pre.length := by omega
    rw [h0]
    simp only [translateBlocks, h]
  have := translateBlocks_append_error pre gen 0 versionSeed els
    (Block.sceneLineItem b :: rest) e hpre hbs
  simp only [blocks_to_excalidraw, this]

theorem blocks_to_excalidraw_error_propagates_witness :
    blocks_to_excalidraw 3 constGen
      (wPre ++ (Block.sceneLineItem limeStrokeBlock :: [Block.rootText helloTextBlock])) =
      .error (.unknownColor "LIME") :=
  blocks_to_excalidraw_error_propagates 3 constGen wPre wPreEls limeStrokeBlock
    [Block.rootText helloTextBlock] (.unknownColor "LIME")
    (by with_unfolding_all rfl) (by with_unfolding_all rfl)

/-- C2: for a stroke block whose inner value carries a color name not in
the palette, `draw_stroke` fails with the unknown-color failure naming
that color, so no element is produced for the block; for a name the
palette maps, a produced element's `strokeColor` is the palette's hex
string for that name. -/
theorem draw_stroke_color_spec (g : Gen) (block : SceneLineItemBlock) (v : SceneLine)
    (hb : block.value = some v) :
    (hexPenColor v.color = none →
      draw_stroke g block = .error (.unknownColor v.color)) ∧
    (∀ hex, hexPenColor v.color = some hex →
      ∀ el, draw_stroke g block = .ok el → el.base.strokeColor = hex) := by
  constructor
  · intro hnone
    exact draw_stroke_unknown g block v hb hnone
  · intro hex hhex el h
    cases hp : v.points with
    | nil => rw [draw_stroke_empty g block v hex hb hhex hp] at h; cases h
    | cons p ps =>
      rw [draw_stroke_eq g block v hex p ps hb hhex hp] at h
      injection h with h
      subst h
      rfl

theorem draw_stroke_color_spec_witness :
    draw_stroke genA tealStrokeBlock = .error (.unknownColor "TEAL") ∧
    wRedStrokeEl.base.strokeColor = "#FF0000" :=
  ⟨(draw_stroke_color_spec genA tealStrokeBlock
      { tool := Pen.ERASER, color := "TEAL", points := [{ x := 1, y := 2, pressure := 3 }] }
      (by with_unfolding_all rfl)).1 (by with_unfolding_all rfl),
   (draw_stroke_color_spec genA redStrokeBlock redStrokeValue (by with_unfolding_all rfl)).2
     "#FF0000" (by with_unfolding_all rfl) wRedStrokeEl (by with_unfolding_all rfl)⟩

/-- C3: the code, evaluated at the claimed-safe input.  A stroke block
with a non-null inner value and zero points makes `draw_stroke` raise
`IndexError` at `absolutePoints[0]` instead of returning the degenerate
empty-stroke element the claim (and the code's own "always returns"
comment) promises. -/
theorem draw_stroke_empty_points_crash :
    draw_stroke genA emptyPointsBlock = .error .indexError := by
  with_unfolding_all rfl

/-- C4 counterexample: a text block whose concatenated text is empty.
The claim predicts height 25 (minimum one line); the code computes
`20 * 1.25 * 0 = 0` because `splitlines` of the empty string has zero
entries and no minimum is applied. -/
theorem draw_text_empty_height_cex :
    (draw_text genA emptyTextBlock).base.height = 0 ∧
    ¬ (draw_text genA emptyTextBlock).base.height = 25 := by
  with_unfolding_all decide

/-- C4 (amended): every text element's height is
`round(20 * 1.25 * lineCount(text))` with no minimum applied, i.e.
`25 * lineCount(text)`, where `text` is the concatenation of the block's
fragments; an empty concatenated text yields height 0, not 25. -/
theorem draw_text_height (g : Gen) (block : RootTextBlock) :
    (draw_text g block).base.height =
      25 * (lineCount (String.join (block.value.items.map fun i => i.2)) : ℚ) := by
  have h25 : (defaultFontSize : ℚ) * defaultLineHeight *
      (lineCount (String.join (block.value.items.map fun i => i.2)) : ℚ) =
      ((25 * (lineCount (String.join (block.value.items.map fun i => i.2)) : ℤ) : ℤ) : ℚ) := by
    simp only [defaultFontSize, defaultLineHeight]
    push_cast
    ring
  simp only [draw_text, h25, pyRound_intCast]
  push_cast
  ring

/-- C5: in every document the translator returns, the versions of
adjacent elements are strictly increasing, whatever the mappers set. -/
theorem blocks_to_excalidraw_versions_mono (versionSeed : Nat) (gen : Nat → Gen)
    (blocks : List Block) (doc : ExcalidrawDocument)
    (h : blocks_to_excalidraw versionSeed gen blocks = .ok doc) :
    List.Chain' (fun a b => elemVersion a < elemVersion b) doc.elements := by
  have hels : translateBlocks gen 0 versionSeed blocks = .ok doc.elements := by
    unfold blocks_to_excalidraw at h
    cases ht : translateBlocks gen 0 versionSeed blocks with
    | error e => rw [ht] at h; cases h
    | ok els => rw [ht] at h; injection h with h; subst h; rfl
  have hv := translateBlocks_versions blocks gen 0 versionSeed doc.elements hels
  have hchain : List.Chain' (· < ·) (doc.elements.map elemVersion) := by
    rw [hv, List.chain'_map]
    exact (supportedIndices_chain blocks).imp fun hlt => by omega
  rw [List.chain'_map] at hchain
  exact hchain

theorem blocks_to_excalidraw_versions_mono_witness :
    List.Chain' (fun a b => elemVersion a < elemVersion b) wDoc.elements :=
  blocks_to_excalidraw_versions_mono 7 wGen wBlocks wDoc (by with_unfolding_all rfl)

/-- C6: for a stroke block with a non-null inner value and a non-empty
point sequence, the produced element's first point is the local origin
`(0, 0)`, its `(x, y)` is the first absolute input point, and adding
`(x, y)` to the k-th stored point recovers the k-th absolute input
point, in input order. -/
theorem draw_stroke_relative_points (g : Gen) (block : SceneLineItemBlock) (v : SceneLine)
    (hb : block.value = some v) (hne : v.points ≠ [])
    (el : ExcalidrawFreedrawElement) (h : draw_stroke g block = .ok el) :
    el.points.length = v.points.length ∧
    (∀ p, v.points.head? = some p → el.base.x = p.x ∧ el.base.y = p.y) ∧
    el.points.head? = some (0, 0) ∧
    (∀ k (hk : k < el.points.length) (hk2 : k < v.points.length),
      el.base.x + (el.points[k]).1 = (v.points[k]).x ∧
      el.base.y + (el.points[k]).2 = (v.points[k]).y) := by
  cases hhex : hexPenColor v.color with
  | none => rw [draw_stroke_unknown g block v hb hhex] at h; cases h
  | some hex =>
    cases hp : v.points with
    | nil => exact absurd hp hne
    | cons p ps =>
      rw [draw_stroke_eq g block v hex p ps hb hhex hp] at h
      injection h with h
      subst h
      refine ⟨by simp [hp], ?_, ?_, ?_⟩
      · intro p0 hp0
        rw [List.head?_cons, Option.some_inj] at hp0
        subst hp0
        exact ⟨rfl, rfl⟩
      · simp [sub_self]
      · intro k hk hk2
        simp only [hp, List.getElem_map]
        exact ⟨by ring, by ring⟩

theorem draw_stroke_relative_points_witness :
    wRedStrokeEl.points.length = redStrokeValue.points.length ∧
    wRedStrokeEl.points.head? = some (0, 0) :=
  ⟨(draw_stroke_relative_points genA redStrokeBlock redStrokeValue (by with_unfolding_all rfl)
      (by with_unfolding_all decide) wRedStrokeEl (by with_unfolding_all rfl)).1,
   (draw_stroke_relative_points genA redStrokeBlock redStrokeValue (by with_unfolding_all rfl)
      (by with_unfolding_all decide) wRedStrokeEl (by with_unfolding_all rfl)).2.2.1⟩

/-- C7: for every element `draw_stroke` produces, the pressure list has
the same length as the point list, and when the block has an inner value
the pressures are exactly the input points' pressures, in order. -/
theorem draw_stroke_pressures_align (g : Gen) (block : SceneLineItemBlock)
    (el : ExcalidrawFreedrawElement) (h : draw_stroke g block = .ok el) :
    el.pressures.length = el.points.length ∧
    ∀ v, block.value = some v → el.pressures = v.points.map Point.pressure := by
  cases hb : block.value with
  | none =>
    rw [draw_stroke_none g block hb] at h
    injection h with h
    subst h
    exact ⟨rfl, fun v hv => by simp at hv⟩
  | some v =>
    cases hhex : hexPenColor v.color with
    | none => rw [draw_stroke_unknown g block v hb hhex] at h; cases h
    | some hex =>
      cases hp : v.points with
      | nil => rw [draw_stroke_empty g block v hex hb hhex hp] at h; cases h
      | cons p ps =>
        rw [draw_stroke_eq g block v hex p ps hb hhex hp] at h
        injection h with h
        subst h
        refine ⟨by simp, fun v2 hv2 => ?_⟩
        rw [Option.some_inj] at hv2
        subst hv2
        rw [hp]

theorem draw_stroke_pressures_align_witness :
    wRedStrokeEl.pressures.length = wRedStrokeEl.points.length ∧
    wRedStrokeEl.pressures = redStrokeValue.points.map Point.pressure :=
  ⟨(draw_stroke_pressures_align genA redStrokeBlock wRedStrokeEl
      (by with_unfolding_all rfl)).1,
   (draw_stroke_pressures_align genA redStrokeBlock wRedStrokeEl
      (by with_unfolding_all rfl)).2 redStrokeValue (by with_unfolding_all rfl)⟩

/-- C8: the Obsidian note is the fixed template with two holes: the
blank-line-joined texts of exactly the text elements in document order,
and the serialised document inside the fenced code block; parsing the
serialised document back along the output JSON shape recovers the
document structurally. -/
theorem excalidraw_to_obsidian_embeds (render : Json → String)
    (document : ExcalidrawDocument) :
    decodeDocument (excalidrawDocument_to_json document) = some document ∧
    excalidraw_to_obsidian render document =
      obsidianTemplateHead ++
        String.intercalate "\n\n" (document.elements.filterMap textOf) ++
        obsidianTemplateMid ++ render (excalidrawDocument_to_json document) ++
        obsidianTemplateTail :=
  ⟨decodeDocument_encodeDocument document, rfl⟩

/-- C9 counterexample: with a generator that repeats an id (as the
unconstrained 21-character random id generator may), two text blocks
translate to a document whose two element ids coincide: the code does
not enforce pairwise-distinct identifiers. -/
theorem blocks_to_excalidraw_dup_ids_cex :
    blocks_to_excalidraw 0 constGen dupBlocks = .ok dupDoc ∧
    dupDoc.elements.map elemId = ["A", "A"] ∧
    ¬ (dupDoc.elements.map elemId).Nodup := by
  refine ⟨by with_unfolding_all rfl, by with_unfolding_all rfl, ?_⟩
  with_unfolding_all decide

/-- C9 (amended): the identifiers of the elements of a translated
document are pairwise distinct provided the id generator yields pairwise
distinct ids over the input's positions; the code draws each id as 21
random characters, which makes repeats unlikely but does not exclude
them. -/
theorem blocks_to_excalidraw_unique_ids (versionSeed : Nat) (gen : Nat → Gen)
    (blocks : List Block) (doc : ExcalidrawDocument)
    (hgen : ((List.range blocks.length).map fun k => (gen k).id).Nodup)
    (h : blocks_to_excalidraw versionSeed gen blocks = .ok doc) :
    (doc.elements.map elemId).Nodup := by
  have hels : translateBlocks gen 0 versionSeed blocks = .ok doc.elements := by
    unfold blocks_to_excalidraw at h
    cases ht : translateBlocks gen 0 versionSeed blocks with
    | error e => rw [ht] at h; cases h
    | ok els => rw [ht] at h; injection h with h; subst h; rfl
  have hid := translateBlocks_ids blocks gen 0 versionSeed doc.elements hels
  have h0 : (fun k => (gen (0 + k)).id) = fun k => (gen k).id := by
    funext k
    rw [Nat.zero_add]
  rw [hid, h0]
  exact List.Nodup.sublist ((supportedIndices_sublist blocks).map fun k => (gen k).id) hgen

theorem blocks_to_excalidraw_unique_ids_witness :
    (wDoc.elements.map elemId).Nodup :=
  blocks_to_excalidraw_unique_ids 7 wGen wBlocks wDoc (by with_unfolding_all decide)
    (by with_unfolding_all rfl)

/-- C10: the version counter is bumped once per input block, skipped
blocks included: the versions of a translated document's elements are,
in order, the seed plus the 1-based positions of the supported blocks in
the input sequence. -/
theorem blocks_to_excalidraw_version_positions (versionSeed : Nat) (gen : Nat → Gen)
    (blocks : List Block) (doc : ExcalidrawDocument)
    (h : blocks_to_excalidraw versionSeed gen blocks = .ok doc) :
    doc.elements.map elemVersion = (supportedIndices blocks).map fun k => versionSeed + k + 1 := by
  have hels : translateBlocks gen 0 versionSeed blocks = .ok doc.elements := by
    unfold blocks_to_excalidraw at h
    cases ht : translateBlocks gen 0 versionSeed blocks with
    | error e => rw [ht] at h; cases h
    | ok els => rw [ht] at h; injection h with h; subst h; rfl
  exact translateBlocks_versions blocks gen 0 versionSeed doc.elements hels

theorem blocks_to_excalidraw_version_positions_witness :
    wDoc.elements.map elemVersion = (supportedIndices wBlocks).map fun k => 7 + k + 1 :=
  blocks_to_excalidraw_version_positions 7 wGen wBlocks wDoc (by with_unfolding_all rfl)
